import Mathlib

/-!
Verification of the MeteorS3 upload-confirmation lifecycle and provisioning
logic (package `bratelefant:meteor-s3`, file `packages/meteor-s3/server.js`
current revision, and `packages/meteor-s3/lambdaManager.js`).

The embedding models the server class as pure functions over an explicit
ledger state (the `meteor_s3_files_<name>` Mongo collection, modelled as a
list of records), with the outcomes of external S3 / Lambda control-plane
calls passed in as explicit parameters, and the side effects (lifecycle hook
invocations, presigned-URL mints, object-delete calls) collected in an
explicit effect log.
-/

namespace MeteorS3

/-- File status enum of `schemas/files.js` (`allowedValues`). -/
inductive FileStatus where
  | pending
  | uploading
  | uploaded
  | error
deriving DecidableEq, Repr

/-- Action strings passed to the permission hook in `server.js`
(comment at the hook site: actions are "upload", "download" or "delete"). -/
inductive S3Action where
  | upload
  | download
  | delete
deriving DecidableEq, Repr

/-- The transient file summary handed to the permission hook and the key
naming hook for `action = upload` (`fileInfos` in `getUploadUrl`). -/
structure FileInfos where
  filename : String
  size : Nat
  mimeType : String
  meta : String
deriving DecidableEq, Repr

/-- A document of the `meteor_s3_files_<name>` collection
(`MeteorS3FilesSchema` plus the Mongo `_id`). Dates are logical clock
values; `meta` is the opaque caller-supplied blackbox attachment. -/
structure FileRecord where
  id : String
  filename : String
  size : Nat
  mimeType : String
  key : String
  bucket : String
  status : FileStatus
  etag : Option String
  ownerId : Option String
  createdAt : Nat
  updatedAt : Option Nat
  meta : String
deriving DecidableEq, Repr

/-- The restricted projection returned by `head` (`publicFileFields`). -/
structure PublicFileView where
  id : String
  filename : String
  size : Nat
  mimeType : String
  status : FileStatus
deriving DecidableEq, Repr

/-- Parameters of a presigned URL mint (`getSignedUrl` on a
`PutObjectCommand`/`GetObjectCommand`): the signed URL is a pure function of
bucket, key and expiry against the store credentials. -/
structure PresignedRequest where
  bucket : String
  key : String
  expiresIn : Nat
deriving DecidableEq, Repr

/-- The `Meteor.Error` tags thrown by the server operations. -/
inductive S3Err where
  | permissionDenied
  | fileNotFound
  | fileNotReady
  | deleteFailed
deriving DecidableEq, Repr

/-- Log of the externally visible side effects of one operation: lifecycle
hook invocations (with their argument record), presigned URL mints, and S3
`DeleteObjectCommand` sends. -/
structure Effects where
  beforeUploadCalls : List FileRecord
  afterUploadCalls : List FileRecord
  presignedPuts : List PresignedRequest
  presignedGets : List PresignedRequest
  deleteCalls : List (String × String)
deriving DecidableEq, Repr

/-- The empty effect log. -/
def noEffects : Effects :=
  { beforeUploadCalls := []
    afterUploadCalls := []
    presignedPuts := []
    presignedGets := []
    deleteCalls := [] }

/-- Outcome of one operation: the thrown error or returned value, the files
collection afterwards, and the effect log. -/
structure OpResult (α : Type) where
  result : Except S3Err α
  files : List FileRecord
  effects : Effects

/-- The type of the `onCheckPermissions` hook: it receives either the
transient `fileInfos` (for uploads) or the full persisted record, the
action, the requester id (`Meteor.userId()`, may be null) and the
caller-supplied opaque context. -/
inductive PermTarget where
  | infos (fi : FileInfos)
  | record (r : FileRecord)
deriving DecidableEq, Repr

/-- A permission predicate as configured via `config.onCheckPermissions`. -/
def PermCheck : Type := PermTarget → S3Action → Option String → String → Bool

/-- Default permission hook installed by the constructor when
`config.onCheckPermissions` is absent (and likewise the `configSchema`
default value): it denies all actions. -/
def defaultOnCheckPermissions : PermCheck := fun _ _ _ _ => false

/-- Constructor logic
`this.onCheckPermissions = this.config.onCheckPermissions || (async ... => false)`. -/
def resolvePermCheck (cfgCheck : Option PermCheck) : PermCheck :=
  cfgCheck.getD defaultOnCheckPermissions

/-- `handlePermissionsCheck`: returns true unconditionally when
`config.skipPermissionChecks` is set, otherwise defers to the hook. -/
def handlePermissionsCheck (skip : Bool) (check : PermCheck)
    (target : PermTarget) (action : S3Action)
    (userId : Option String) (context : String) : Bool :=
  if skip then true else check target action userId context

/-- The key naming hook type (`config.onGetKey`). -/
def KeyNamer : Type := FileInfos → Option String → String → String

/-- Default key naming hook: a random id joined to the original filename.
The random id is passed in explicitly. -/
def defaultOnGetKey (randomId : String) : KeyNamer :=
  fun fileInfos _ _ => randomId ++ "-" ++ fileInfos.filename

/-- `findOneAsync(fileId)` on the files collection. -/
def findFile (files : List FileRecord) (fileId : String) : Option FileRecord :=
  files.find? (fun r => r.id == fileId)

/-- The `$set` update applied by `handleFileUploadEvent` via
`files.updateAsync(fileId, {$set: {status, etag, updatedAt}})`. -/
def markUploaded (files : List FileRecord) (fileId : String)
    (etagVal : String) (now : Nat) : List FileRecord :=
  files.map (fun r =>
    if r.id == fileId then
      { r with status := FileStatus.uploaded
               etag := some etagVal
               updatedAt := some now }
    else r)

/-- `handleFileUploadEvent(fileId)` of the current `server.js` revision
(the `confirmUpload` operation of the spec). `headObject` is the outcome of
`HeadObjectCommand` against the instance bucket: `some etag` when the send
succeeds, `none` when it throws. `now` is the wall clock for `new Date()`.
Steps, faithful to the source: load the record (throw `s3-file-not-found`
when absent); head-probe the record's `key` (throw `s3-file-not-found` when
the probe throws); update the record to `uploaded` with the probed `ETag`
and `updatedAt`; invoke `onAfterUpload` with the record loaded before the
update; return that pre-update record. -/
def handleFileUploadEvent (files : List FileRecord)
    (headObject : String → Option String) (now : Nat)
    (fileId : String) : OpResult FileRecord :=
  match findFile files fileId with
  | none =>
      { result := Except.error S3Err.fileNotFound
        files := files
        effects := noEffects }
  | some fileDoc =>
      match headObject fileDoc.key with
      | none =>
          { result := Except.error S3Err.fileNotFound
            files := files
            effects := noEffects }
      | some etagVal =>
          { result := Except.ok fileDoc
            files := markUploaded files fileId etagVal now
            effects := { noEffects with afterUploadCalls := [fileDoc] } }

/-- The Meteor method `meteorS3.<name>.handleFileUploadEvent` registered in
`ensureMethods`: the method body takes only `fileId` and calls
`self.handleFileUploadEvent(fileId)`; the ambient caller identity
(`Meteor.userId()`), the caller-supplied context and the instance permission
configuration are available but never consulted. -/
def methodHandleFileUploadEvent (_skip : Bool) (_check : PermCheck)
    (_callerUserId : Option String) (_callerContext : String)
    (files : List FileRecord) (headObject : String → Option String)
    (now : Nat) (fileId : String) : OpResult FileRecord :=
  handleFileUploadEvent files headObject now fileId

/-- `getUploadUrl({name, size, type, meta, userId, context})` of the current
`server.js` revision (the `issueUploadIntent` operation of the spec).
`newId` is the Mongo id generated by `insertAsync`; `now` is `new Date()`;
`uploadExpiresIn` and `bucketName` come from the instance. Steps, faithful
to the source: build `fileInfos`; run `handlePermissionsCheck` with action
`upload` (throw `s3-permission-denied` on false); build the S3 params with
`Key = "uploads/" + onGetKey(fileInfos, userId, context)`; insert the
`pending` file document with that key; reload it and invoke
`onBeforeUpload`; mint the presigned PUT URL for the same params; return
the URL and the new file id. -/
def getUploadUrl (skip : Bool) (check : PermCheck) (onGetKey : KeyNamer)
    (bucketName : String) (uploadExpiresIn : Nat)
    (files : List FileRecord) (newId : String) (now : Nat)
    (name : String) (size : Nat) (type : String) (meta : String)
    (userId : Option String) (context : String) :
    OpResult (PresignedRequest × String) :=
  let fileInfos : FileInfos :=
    { filename := name, size := size, mimeType := type, meta := meta }
  if handlePermissionsCheck skip check (PermTarget.infos fileInfos)
      S3Action.upload userId context then
    let key := "uploads/" ++ onGetKey fileInfos userId context
    let fileDoc : FileRecord :=
      { id := newId
        filename := name
        size := size
        mimeType := type
        key := key
        bucket := bucketName
        status := FileStatus.pending
        etag := none
        ownerId := userId
        createdAt := now
        updatedAt := none
        meta := meta }
    let url : PresignedRequest :=
      { bucket := bucketName, key := key, expiresIn := uploadExpiresIn }
    { result := Except.ok (url, newId)
      files := files ++ [fileDoc]
      effects := { noEffects with
                     beforeUploadCalls := [fileDoc]
                     presignedPuts := [url] } }
  else
    { result := Except.error S3Err.permissionDenied
      files := files
      effects := noEffects }

/-- `head({fileId, context, userId})`: loads the record (throw
`s3-file-not-found` when absent), runs the permission check with action
`download` (throw `s3-permission-denied` on false), and returns the record
projected to `publicFileFields`. -/
def head (skip : Bool) (check : PermCheck)
    (files : List FileRecord) (fileId : String)
    (userId : Option String) (context : String) : OpResult PublicFileView :=
  match findFile files fileId with
  | none =>
      { result := Except.error S3Err.fileNotFound
        files := files
        effects := noEffects }
  | some file =>
      if handlePermissionsCheck skip check (PermTarget.record file)
          S3Action.download userId context then
        { result := Except.ok
            { id := file.id
              filename := file.filename
              size := file.size
              mimeType := file.mimeType
              status := file.status }
          files := files
          effects := noEffects }
      else
        { result := Except.error S3Err.permissionDenied
          files := files
          effects := noEffects }

/-- `getDownloadUrl({fileId, context, userId})` (the `issueDownloadUrl`
operation of the spec): loads the record (throw `s3-file-not-found` when
absent), runs the permission check with action `download` (throw
`s3-permission-denied` on false), throws `s3-file-not-ready` unless the
status is `uploaded`, then mints a presigned GET URL for the instance
bucket and the record's key. -/
def getDownloadUrl (skip : Bool) (check : PermCheck)
    (bucketName : String) (downloadExpiresIn : Nat)
    (files : List FileRecord) (fileId : String)
    (userId : Option String) (context : String) : OpResult PresignedRequest :=
  match findFile files fileId with
  | none =>
      { result := Except.error S3Err.fileNotFound
        files := files
        effects := noEffects }
  | some fileDoc =>
      if handlePermissionsCheck skip check (PermTarget.record fileDoc)
          S3Action.download userId context then
        if fileDoc.status = FileStatus.uploaded then
          let url : PresignedRequest :=
            { bucket := bucketName
              key := fileDoc.key
              expiresIn := downloadExpiresIn }
          { result := Except.ok url
            files := files
            effects := { noEffects with presignedGets := [url] } }
        else
          { result := Except.error S3Err.fileNotReady
            files := files
            effects := noEffects }
      else
        { result := Except.error S3Err.permissionDenied
          files := files
          effects := noEffects }

/-- `removeFile({fileId, context, userId})`: loads the record (throw
`s3-file-not-found` when absent), runs the permission check with action
`delete` (throw `s3-permission-denied` on false), sends the S3
`DeleteObjectCommand` for the instance bucket and the record's key —
`deleteOk` is that send's outcome; when it throws, the operation rethrows
`s3-delete-failed` — and only then removes the ledger record. -/
def removeFile (skip : Bool) (check : PermCheck) (bucketName : String)
    (files : List FileRecord) (fileId : String)
    (userId : Option String) (context : String)
    (deleteOk : Bool) : OpResult Unit :=
  match findFile files fileId with
  | none =>
      { result := Except.error S3Err.fileNotFound
        files := files
        effects := noEffects }
  | some fileDoc =>
      if handlePermissionsCheck skip check (PermTarget.record fileDoc)
          S3Action.delete userId context then
        if deleteOk then
          { result := Except.ok ()
            files := files.filter (fun r => !(r.id == fileId))
            effects := { noEffects with
                           deleteCalls := [(bucketName, fileDoc.key)] } }
        else
          { result := Except.error S3Err.deleteFailed
            files := files
            effects := { noEffects with
                           deleteCalls := [(bucketName, fileDoc.key)] } }
      else
        { result := Except.error S3Err.permissionDenied
          files := files
          effects := noEffects }

/-- Character class `[a-z0-9-]` of the slugification regex in
`generateValidBucketName`. -/
def validBucketChar (c : Char) : Bool :=
  (decide ('a' ≤ c) && decide (c ≤ 'z'))
  || (decide ('0' ≤ c) && decide (c ≤ '9'))
  || c == '-'

/-- Character class of `Random.id(6).toLowerCase()`: Meteor's `Random.id`
draws from an unmistakable alphanumeric alphabet, so the lowered suffix
consists of lowercase letters and digits only. -/
def isLowerAlnum (c : Char) : Bool :=
  (decide ('a' ≤ c) && decide (c ≤ 'z'))
  || (decide ('0' ≤ c) && decide (c ≤ '9'))

/-- One character step of `.replace(/[^a-z0-9-]/g, "-")`. -/
def slugReplaceChar (c : Char) : Char :=
  if validBucketChar c then c else '-'

/-- The regex replace that removes the leading hyphen run. -/
def dropLeadingHyphens (l : List Char) : List Char :=
  l.dropWhile (fun c => c == '-')

/-- The regex replace that removes the trailing hyphen run. -/
def dropTrailingHyphens (l : List Char) : List Char :=
  (l.reverse.dropWhile (fun c => c == '-')).reverse

/-- Run collapser for the regex replace that turns each hyphen run of
length at least two into a single hyphen: the flag records whether the
previous input character was a hyphen. -/
def collapseHyphensAux : Bool → List Char → List Char
  | _, [] => []
  | prevHyphen, c :: rest =>
    if c == '-' then
      if prevHyphen then collapseHyphensAux true rest
      else c :: collapseHyphensAux true rest
    else c :: collapseHyphensAux false rest

/-- The regex replace that collapses doubled hyphens (global). -/
def collapseHyphens (l : List Char) : List Char :=
  collapseHyphensAux false l

/-- The `slugified` value of `generateValidBucketName`:
lowercase, replace invalid characters by `-`, strip leading and trailing
hyphen runs, collapse inner hyphen runs. -/
def slugify (l : List Char) : List Char :=
  collapseHyphens
    (dropTrailingHyphens
      (dropLeadingHyphens ((l.map Char.toLower).map slugReplaceChar)))

/-- `MeteorS3.generateValidBucketName` of the current `server.js` revision,
on character lists. `devNotTest` is `Meteor.isDevelopment && !Meteor.isTest`
(fixed-suffix derivation); otherwise the lowered `Random.id(6)` suffix is
appended. The result is truncated to 63 characters via `substring(0, 63)`. -/
def generateValidBucketNameChars (instanceName : List Char)
    (devNotTest : Bool) (randomSuffix : List Char) : List Char :=
  let slugified := slugify instanceName
  let baseName :=
    if devNotTest then "meteor-s3-".data ++ slugified
    else "meteor-s3-".data ++ slugified ++ ('-' :: randomSuffix)
  baseName.take 63

/-- `MeteorS3.generateValidBucketName` on strings. -/
def generateValidBucketName (instanceName : String) (devNotTest : Bool)
    (randomSuffix : String) : String :=
  String.mk (generateValidBucketNameChars instanceName.data devNotTest
    randomSuffix.data)

/-- Predicate deciding whether two adjacent hyphens occur. -/
def noDoubleHyphen : List Char → Bool
  | c1 :: c2 :: rest => !(c1 == '-' && c2 == '-') && noDoubleHyphen (c2 :: rest)
  | _ => true

/-- Modelled from the spec: the bucket-name validity property claimed in
section 8 of the specification — 1 to 63 characters, only lowercase
letters, digits and hyphens, no leading hyphen, no trailing hyphen, no
doubled hyphen. Used to compare the generator's output against the claim. -/
def isValidBucketNameChars (l : List Char) : Bool :=
  decide (1 ≤ l.length) && decide (l.length ≤ 63)
  && l.all validBucketChar
  && !(l.head? == some '-')
  && !(l.getLast? == some '-')
  && noDoubleHyphen l

/-- Modelled from the spec: string form of `isValidBucketNameChars`. -/
def isValidBucketName (s : String) : Bool :=
  isValidBucketNameChars s.data

/-- One entry of `LambdaFunctionConfigurations` in a bucket notification
configuration, as read and written by `ensureS3UploadTrigger`. -/
structure NotifEntry where
  id : String
  lambdaFunctionArn : String
  events : List String
  filterRules : List (String × String)
deriving DecidableEq, Repr

/-- A bucket notification configuration: the lambda entries plus the queue
and topic configurations, which `ensureS3UploadTrigger` carries along
opaquely (modelled as opaque strings). -/
structure NotifConfig where
  lambdaConfigs : List NotifEntry
  queueConfigs : List String
  topicConfigs : List String
deriving DecidableEq, Repr

/-- The `desired` notification entry of `ensureS3UploadTrigger`: its id is
derived from the function name as `("uploads-" + functionName).slice(0, 50)`,
it targets the function's ARN, fires on `s3:ObjectCreated:*`, and filters on
the key prefix `uploads/`. -/
def desiredNotifEntry (functionName lambdaArn : String) : NotifEntry :=
  { id := String.mk (("uploads-" ++ functionName).data.take 50)
    lambdaFunctionArn := lambdaArn
    events := ["s3:ObjectCreated:*"]
    filterRules := [("prefix", "uploads/")] }

/-- The equality test used both when filtering the existing entries and when
verifying the read-back configuration: same function ARN and same id. -/
def notifMatchesDesired (desired c : NotifEntry) : Bool :=
  c.lambdaFunctionArn == desired.lambdaFunctionArn && c.id == desired.id

/-- The merge performed inside `putWithRetry`: keep every current lambda
entry whose (ARN, id) pair differs from the desired one, append the desired
entry, and carry over the queue and topic configurations unchanged. -/
def mergeNotifConfig (current : NotifConfig) (desired : NotifEntry) :
    NotifConfig :=
  { lambdaConfigs :=
      current.lambdaConfigs.filter (fun c => !(notifMatchesDesired desired c))
        ++ [desired]
    queueConfigs := current.queueConfigs
    topicConfigs := current.topicConfigs }

/-- Outcome of the `AddPermissionCommand` send: a
`ResourceConflictException` (permission already exists) is tolerated, any
other error is fatal. -/
inductive AddPermOutcome where
  | success
  | alreadyExists
  | fatal
deriving DecidableEq, Repr

/-- Outcome of one `PutBucketNotificationConfigurationCommand` send:
`retryable` stands for `InvalidArgument` or `ResourceConflictException`
(retried with linear backoff), `fatal` for any other error (rethrown). -/
inductive PutNotifOutcome where
  | success
  | retryable
  | fatal
deriving DecidableEq, Repr

/-- Error outcomes of `ensureS3UploadTrigger`. -/
inductive TriggerErr where
  | notReady
  | permissionFatal
  | putFatal
  | putRetriesExhausted
  | verifyFailed
deriving DecidableEq, Repr

/-- The `putWithRetry` loop of `ensureS3UploadTrigger` (`max = 8`): on each
attempt `i` it reads the bucket's current notification configuration
(`read i` — the environment may change between attempts), writes back the
merge of that configuration with the desired entry, returns on success,
retries after a backoff on a retryable error, rethrows anything else, and
throws after exhausting all attempts. -/
def putNotifWithRetry (desired : NotifEntry) (read : Nat → NotifConfig)
    (put : Nat → NotifConfig → PutNotifOutcome) :
    Nat → Nat → Except TriggerErr Unit
  | 0, _ => Except.error TriggerErr.putRetriesExhausted
  | fuel + 1, i =>
    match put i (mergeNotifConfig (read i) desired) with
    | PutNotifOutcome.success => Except.ok ()
    | PutNotifOutcome.retryable => putNotifWithRetry desired read put fuel (i + 1)
    | PutNotifOutcome.fatal => Except.error TriggerErr.putFatal

/-- `ensureS3UploadTrigger(functionName)` of `lambdaManager.js`: wait until
the function is active (`ready` is that bounded poll's outcome), grant S3
permission to invoke the function tolerating an already-existing grant,
run `putWithRetry`, then read the configuration back (`finalRead`) and fail
unless the desired entry is present. -/
def ensureS3UploadTrigger (functionName lambdaArn : String) (ready : Bool)
    (addPermission : AddPermOutcome) (read : Nat → NotifConfig)
    (put : Nat → NotifConfig → PutNotifOutcome)
    (finalRead : NotifConfig) : Except TriggerErr Unit :=
  if !ready then Except.error TriggerErr.notReady
  else
    match addPermission with
    | AddPermOutcome.fatal => Except.error TriggerErr.permissionFatal
    | _ =>
      let desired := desiredNotifEntry functionName lambdaArn
      match putNotifWithRetry desired read put 8 0 with
      | Except.error e => Except.error e
      | Except.ok () =>
        if finalRead.lambdaConfigs.any (notifMatchesDesired desired) then
          Except.ok ()
        else Except.error TriggerErr.verifyFailed

/-! Concrete fixtures used by counterexamples and witnesses. -/

/-- Fixture: a record already in the terminal `uploaded` state. -/
def c1rec : FileRecord :=
  { id := "f1"
    filename := "a.png"
    size := 10
    mimeType := "image/png"
    key := "uploads/k1-a.png"
    bucket := "meteor-s3-t"
    status := FileStatus.uploaded
    etag := some "etag-old"
    ownerId := some "u1"
    createdAt := 0
    updatedAt := some 1
    meta := "m" }

/-- Fixture: a head probe that finds the object of `c1rec` with a fresh
content digest. -/
def c1probe : String → Option String :=
  fun k => if k == "uploads/k1-a.png" then some "etag-new" else none

/-- Fixture: a pending record whose object has just landed. -/
def c2rec : FileRecord :=
  { id := "f2"
    filename := "b.pdf"
    size := 20
    mimeType := "application/pdf"
    key := "uploads/k2-b.pdf"
    bucket := "meteor-s3-t"
    status := FileStatus.pending
    etag := none
    ownerId := some "u2"
    createdAt := 0
    updatedAt := none
    meta := "" }

/-- Fixture: a head probe that finds the object of `c2rec`. -/
def c2probe : String → Option String :=
  fun k => if k == "uploads/k2-b.pdf" then some "etag-new" else none

/-- Fixture: a pending record used by the probe-failure and removal
witnesses. -/
def c4rec : FileRecord :=
  { id := "f4"
    filename := "c.txt"
    size := 5
    mimeType := "text/plain"
    key := "uploads/k4-c.txt"
    bucket := "meteor-s3-t"
    status := FileStatus.pending
    etag := none
    ownerId := none
    createdAt := 3
    updatedAt := none
    meta := "x" }

/-- Fixture: a permission hook that allows everything. -/
def allowAll : PermCheck := fun _ _ _ _ => true

/-- Fixture: a permission hook that denies everything. -/
def denyAll : PermCheck := fun _ _ _ _ => false

/-- Fixture: record used by the caller-independence witness. -/
def c10rec : FileRecord :=
  { id := "f10"
    filename := "d.bin"
    size := 1
    mimeType := "application/octet-stream"
    key := "uploads/k10-d.bin"
    bucket := "meteor-s3-t"
    status := FileStatus.pending
    etag := none
    ownerId := some "owner"
    createdAt := 0
    updatedAt := none
    meta := "" }

/-- Fixture: head probe that finds the object of `c10rec`. -/
def c10probe : String → Option String :=
  fun k => if k == "uploads/k10-d.bin" then some "etag-10" else none

/-- Fixture: an unrelated notification entry present on the bucket. -/
def otherNotifEntry : NotifEntry :=
  { id := "other-id"
    lambdaFunctionArn := "arn:aws:lambda:other"
    events := ["s3:ObjectRemoved:*"]
    filterRules := [] }

/-! Helper lemmas about the slugification pipeline. -/

/-- The collapser started with a set flag never emits a leading hyphen. -/
theorem collapseHyphensAux_true_head (l : List Char) :
    (collapseHyphensAux true l).head? ≠ some '-' := by
  induction l with
  | nil => simp [collapseHyphensAux]
  | cons c rest ih =>
    by_cases h : c == '-'
    · simpa [collapseHyphensAux, h] using ih
    · have hc : c ≠ '-' := by simpa using h
      simp [collapseHyphensAux, h, hc]

/-- The collapser's output never contains two adjacent hyphens. -/
theorem collapseHyphensAux_noDouble (l : List Char) (b : Bool) :
    noDoubleHyphen (collapseHyphensAux b l) = true := by
  induction l generalizing b with
  | nil => simp [collapseHyphensAux, noDoubleHyphen]
  | cons c rest ih =>
    by_cases h : c == '-'
    · cases b with
      | true => simpa [collapseHyphensAux, h] using ih true
      | false =>
        simp only [collapseHyphensAux, h, if_true]
        cases hys : collapseHyphensAux true rest with
        | nil => simp [noDoubleHyphen]
        | cons y ys =>
          have hy : ¬ (y = '-') := by
            have := collapseHyphensAux_true_head rest
            rw [hys] at this
            simpa using this
          have hnd := ih true
          rw [hys] at hnd
          simp [noDoubleHyphen, hnd, hy]
    · simp only [collapseHyphensAux, h, if_false]
      cases hys : collapseHyphensAux false rest with
      | nil => simp [noDoubleHyphen]
      | cons y ys =>
        have hnd := ih false
        rw [hys] at hnd
        simp [noDoubleHyphen, hnd, h]

/-- Every character emitted by the collapser comes from its input. -/
theorem collapseHyphensAux_mem (l : List Char) (b : Bool) (c : Char)
    (hc : c ∈ collapseHyphensAux b l) : c ∈ l := by
  induction l generalizing b with
  | nil => simp [collapseHyphensAux] at hc
  | cons a rest ih =>
    by_cases h : a == '-'
    · cases b with
      | true =>
        simp only [collapseHyphensAux, h, if_true] at hc
        exact List.mem_cons_of_mem a (ih true hc)
      | false =>
        simp only [collapseHyphensAux, h, if_true] at hc
        rcases List.mem_cons.mp hc with h1 | h1
        · exact h1 ▸ List.mem_cons_self a rest
        · exact List.mem_cons_of_mem a (ih true h1)
    · simp only [collapseHyphensAux, h, if_false] at hc
      rcases List.mem_cons.mp hc with h1 | h1
      · exact h1 ▸ List.mem_cons_self a rest
      · exact List.mem_cons_of_mem a (ih false h1)

/-- The collapser with an unset flag preserves the first character. -/
theorem collapseHyphens_head? (l : List Char) :
    (collapseHyphens l).head? = l.head? := by
  cases l with
  | nil => rfl
  | cons c rest =>
    by_cases h : c == '-'
    · have hc : c = '-' := by simpa using h
      subst hc
      simp [collapseHyphens, collapseHyphensAux]
    · simp [collapseHyphens, collapseHyphensAux, h]

/-- The collapser with an unset flag maps nonempty inputs to nonempty
outputs. -/
theorem collapseHyphens_ne_nil (c : Char) (rest : List Char) :
    collapseHyphens (c :: rest) ≠ [] := by
  by_cases h : c == '-' <;> simp [collapseHyphens, collapseHyphensAux, h]

/-- If the collapser with a set flag returns the empty list, every input
character was a hyphen. -/
theorem collapseHyphensAux_true_eq_nil (l : List Char)
    (h : collapseHyphensAux true l = []) : ∀ c ∈ l, c = '-' := by
  induction l with
  | nil => intro c hc; simp at hc
  | cons a rest ih =>
    by_cases ha : a == '-'
    · simp only [collapseHyphensAux, ha, if_true] at h
      intro c hc
      rcases List.mem_cons.mp hc with h1 | h1
      · rw [h1]; simpa using ha
      · exact ih h c h1
    · simp [collapseHyphensAux, ha] at h

/-- Single unfolding step of the collapser on a cons cell. -/
theorem collapseHyphensAux_cons (b : Bool) (c : Char) (rest : List Char) :
    collapseHyphensAux b (c :: rest) =
      if c == '-' then
        (if b then collapseHyphensAux true rest
         else c :: collapseHyphensAux true rest)
      else c :: collapseHyphensAux false rest := by
  rw [collapseHyphensAux]

/-- Collapser step: hyphen after a hyphen is dropped. -/
theorem collapseHyphensAux_pos_true (c : Char) (rest : List Char)
    (hc : (c == '-') = true) :
    collapseHyphensAux true (c :: rest) = collapseHyphensAux true rest := by
  rw [collapseHyphensAux_cons, hc]
  simp

/-- Collapser step: hyphen after a non-hyphen is kept. -/
theorem collapseHyphensAux_pos_false (c : Char) (rest : List Char)
    (hc : (c == '-') = true) :
    collapseHyphensAux false (c :: rest) = c :: collapseHyphensAux true rest := by
  rw [collapseHyphensAux_cons, hc]
  simp

/-- Collapser step: a non-hyphen is kept and resets the flag. -/
theorem collapseHyphensAux_neg (b : Bool) (c : Char) (rest : List Char)
    (hc : (c == '-') = false) :
    collapseHyphensAux b (c :: rest) = c :: collapseHyphensAux false rest := by
  rw [collapseHyphensAux_cons, hc]
  simp

/-- A nonempty list of hyphens ends with a hyphen. -/
theorem getLast?_of_all_hyphen (l : List Char) (hne : l ≠ [])
    (h : ∀ c ∈ l, c = '-') : l.getLast? = some '-' := by
  have hmem := List.getLast_mem hne
  have hval := h _ hmem
  rw [List.getLast?_eq_getLast l hne, hval]

/-- The collapser preserves the absence of a trailing hyphen. -/
theorem collapseHyphensAux_getLast (l : List Char) (b : Bool)
    (h : l.getLast? ≠ some '-') :
    (collapseHyphensAux b l).getLast? ≠ some '-' := by
  induction l generalizing b with
  | nil => simp [collapseHyphensAux]
  | cons c rest ih =>
    cases rest with
    | nil =>
      have hc : ¬ (c == '-') = true := by
        simp only [List.getLast?_singleton] at h
        simpa using h
      simpa [collapseHyphensAux, hc] using h
    | cons r rs =>
      have h' : (r :: rs).getLast? ≠ some '-' := by
        rwa [List.getLast?_cons_cons] at h
      by_cases hc : (c == '-') = true
      · cases b with
        | true =>
          rw [collapseHyphensAux_pos_true _ _ hc]
          exact ih true h'
        | false =>
          rw [collapseHyphensAux_pos_false _ _ hc]
          cases hys : collapseHyphensAux true (r :: rs) with
          | nil =>
            exfalso
            have hall := collapseHyphensAux_true_eq_nil _ hys
            exact h' (getLast?_of_all_hyphen _ (by simp) hall)
          | cons y ys =>
            have hlast := ih true h'
            rw [hys] at hlast
            rw [List.getLast?_cons_cons]
            exact hlast
      · rw [collapseHyphensAux_neg _ _ _ (by simpa using hc)]
        cases hys : collapseHyphensAux false (r :: rs) with
        | nil =>
          exact absurd hys (by
            by_cases hr : (r == '-') = true
            · rw [collapseHyphensAux_pos_false _ _ hr]; simp
            · rw [collapseHyphensAux_neg _ _ _ (by simpa using hr)]; simp)
        | cons y ys =>
          have hlast := ih false h'
          rw [hys] at hlast
          rw [List.getLast?_cons_cons]
          exact hlast

/-- Output of the hyphen replacement step consists of valid characters. -/
theorem slugReplaceChar_valid (c : Char) :
    validBucketChar (slugReplaceChar c) = true := by
  unfold slugReplaceChar
  by_cases h : validBucketChar c = true
  · rw [if_pos h]; exact h
  · rw [if_neg h]; decide

/-- The leading strip leaves no leading hyphen. -/
theorem dropLeadingHyphens_head (l : List Char) :
    (dropLeadingHyphens l).head? ≠ some '-' := by
  induction l with
  | nil => simp [dropLeadingHyphens]
  | cons c rest ih =>
    by_cases h : c == '-'
    · simpa [dropLeadingHyphens, List.dropWhile_cons, h] using ih
    · have hc : c ≠ '-' := by simpa using h
      simp [dropLeadingHyphens, List.dropWhile_cons, h, hc]

/-- The trailing strip leaves no trailing hyphen. -/
theorem dropTrailingHyphens_getLast (l : List Char) :
    (dropTrailingHyphens l).getLast? ≠ some '-' := by
  unfold dropTrailingHyphens
  rw [List.getLast?_reverse]
  exact dropLeadingHyphens_head l.reverse

/-- The trailing strip preserves the head of its input when nonempty. -/
theorem dropTrailingHyphens_head (l : List Char) (c : Char)
    (h : (dropTrailingHyphens l).head? = some c) : l.head? = some c := by
  have hsplit : dropTrailingHyphens l
      ++ (l.reverse.takeWhile (fun x => x == '-')).reverse = l := by
    unfold dropTrailingHyphens
    rw [← List.reverse_append, List.takeWhile_append_dropWhile, List.reverse_reverse]
  have hne : dropTrailingHyphens l ≠ [] := by
    intro hnil
    rw [hnil] at h
    simp at h
  calc l.head? = (dropTrailingHyphens l
      ++ (l.reverse.takeWhile (fun x => x == '-')).reverse).head? := by rw [hsplit]
    _ = (dropTrailingHyphens l).head? := List.head?_append_of_ne_nil _ hne
    _ = some c := h

/-- Membership propagates through sublists produced by the strips. -/
theorem mem_dropTrailingHyphens (l : List Char) (c : Char)
    (h : c ∈ dropTrailingHyphens l) : c ∈ l := by
  unfold dropTrailingHyphens at h
  rw [List.mem_reverse] at h
  have := (List.dropWhile_sublist _).mem h
  rwa [List.mem_reverse] at this

/-- Every character of a slugified name is a lowercase letter, a digit or a
hyphen. -/
theorem slugify_all_valid (l : List Char) (c : Char) (hc : c ∈ slugify l) :
    validBucketChar c = true := by
  unfold slugify at hc
  have h1 := collapseHyphensAux_mem _ _ _ hc
  have h2 := mem_dropTrailingHyphens _ _ h1
  have h3 := (List.dropWhile_sublist _).mem h2
  rcases List.mem_map.mp h3 with ⟨d, _, hd⟩
  rw [← hd]
  exact slugReplaceChar_valid d

/-- A slugified name has no leading hyphen. -/
theorem slugify_head (l : List Char) : (slugify l).head? ≠ some '-' := by
  unfold slugify
  rw [collapseHyphens_head?]
  intro hcon
  have h1 := dropTrailingHyphens_head _ _ hcon
  exact dropLeadingHyphens_head _ h1

/-- A slugified name has no trailing hyphen. -/
theorem slugify_getLast (l : List Char) : (slugify l).getLast? ≠ some '-' := by
  unfold slugify
  exact collapseHyphensAux_getLast _ false (dropTrailingHyphens_getLast _)

/-- A slugified name has no doubled hyphen. -/
theorem slugify_noDouble (l : List Char) :
    noDoubleHyphen (slugify l) = true :=
  collapseHyphensAux_noDouble _ false

/-- The doubled-hyphen predicate across an append, given that the junction
itself is not a doubled hyphen. -/
theorem noDoubleHyphen_append (xs ys : List Char)
    (hxs : noDoubleHyphen xs = true) (hys : noDoubleHyphen ys = true)
    (hj : xs.getLast? ≠ some '-' ∨ ys.head? ≠ some '-') :
    noDoubleHyphen (xs ++ ys) = true := by
  induction xs with
  | nil => simpa using hys
  | cons a tl ih =>
    cases tl with
    | nil =>
      cases ys with
      | nil => simp [noDoubleHyphen]
      | cons y yrest =>
        have hno : ¬ (a = '-' ∧ y = '-') := by
          rcases hj with hj | hj
          · intro hand; exact hj (by simp [hand.1])
          · intro hand; exact hj (by simp [hand.2])
        simp only [List.singleton_append, noDoubleHyphen]
        rw [Bool.and_eq_true]
        constructor
        · simp only [Bool.not_eq_eq_eq_not, Bool.not_true, Bool.and_eq_false_iff]
          by_cases ha : a = '-'
          · right
            have : ¬ y = '-' := fun hy => hno ⟨ha, hy⟩
            simpa using this
          · left
            simpa using ha
        · exact hys
    | cons b tl2 =>
      have hstep : noDoubleHyphen (a :: b :: tl2) =
          (!(a == '-' && b == '-') && noDoubleHyphen (b :: tl2)) := rfl
      rw [hstep, Bool.and_eq_true] at hxs
      have hj' : (b :: tl2).getLast? ≠ some '-' ∨ ys.head? ≠ some '-' := by
        rcases hj with hj | hj
        · left; rwa [List.getLast?_cons_cons] at hj
        · right; exact hj
      have htail := ih hxs.2 hj'
      show (!(a == '-' && b == '-') && noDoubleHyphen ((b :: tl2) ++ ys)) = true
      rw [Bool.and_eq_true]
      exact ⟨hxs.1, htail⟩

/-- The doubled-hyphen predicate is preserved by truncation. -/
theorem noDoubleHyphen_take (l : List Char) (n : Nat)
    (h : noDoubleHyphen l = true) : noDoubleHyphen (l.take n) = true := by
  induction l generalizing n with
  | nil => simp [List.take_nil, noDoubleHyphen]
  | cons a tl ih =>
    cases n with
    | zero => simp [noDoubleHyphen]
    | succ n =>
      rw [List.take_succ_cons]
      cases tl with
      | nil => simpa using h
      | cons b tl2 =>
        cases n with
        | zero => simp [noDoubleHyphen]
        | succ n =>
          rw [List.take_succ_cons]
          have hstep : noDoubleHyphen (a :: b :: tl2) =
              (!(a == '-' && b == '-') && noDoubleHyphen (b :: tl2)) := rfl
          rw [hstep, Bool.and_eq_true] at h
          have htail := ih (n := n + 1) h.2
          rw [List.take_succ_cons] at htail
          show (!(a == '-' && b == '-')
              && noDoubleHyphen (b :: List.take n tl2)) = true
          rw [Bool.and_eq_true]
          exact ⟨h.1, htail⟩

/-- Alphanumeric lists contain no hyphen, hence no doubled hyphen. -/
theorem noDoubleHyphen_of_alnum (l : List Char)
    (h : l.all isLowerAlnum = true) : noDoubleHyphen l = true := by
  induction l with
  | nil => rfl
  | cons a tl ih =>
    rw [List.all_cons, Bool.and_eq_true] at h
    cases tl with
    | nil => rfl
    | cons b tl2 =>
      have hbn : (b == '-') = false := by
        have hb : isLowerAlnum b = true := by
          have := h.2
          rw [List.all_cons, Bool.and_eq_true] at this
          exact this.1
        by_cases hb' : b = '-'
        · rw [hb'] at hb; exact absurd hb (by decide)
        · simpa using hb'
      show (!(a == '-' && b == '-') && noDoubleHyphen (b :: tl2)) = true
      rw [Bool.and_eq_true]
      refine ⟨?_, ih h.2⟩
      rw [hbn]
      simp

/-- Alphanumeric characters are valid bucket-name characters. -/
theorem validBucketChar_of_alnum (c : Char) (h : isLowerAlnum c = true) :
    validBucketChar c = true := by
  unfold isLowerAlnum at h
  unfold validBucketChar
  rw [Bool.or_eq_true]
  left
  exact h

/-- An alphanumeric list does not end with a hyphen. -/
theorem alnum_getLast (l : List Char) (h : l.all isLowerAlnum = true) :
    l.getLast? ≠ some '-' := by
  intro hcon
  cases hl : l with
  | nil => rw [hl] at hcon; simp at hcon
  | cons a tl =>
    rw [hl] at hcon h
    have hne : a :: tl ≠ ([] : List Char) := by simp
    rw [List.getLast?_eq_getLast _ hne] at hcon
    have hmem := List.getLast_mem hne
    have := List.all_eq_true.mp h _ hmem
    rw [Option.some.injEq] at hcon
    rw [hcon] at this
    exact absurd this (by decide)

/-- The untruncated base name always starts with the fixed stem. -/
theorem baseChars_head (slug tail : List Char) :
    ("meteor-s3-".data ++ slug ++ tail).head? = some 'm' := by
  rw [List.append_assoc]
  rw [List.head?_append_of_ne_nil _ (by decide)]
  decide

/-- Unfolding of the generator in the fixed-suffix (development, non-test)
derivation. -/
theorem genChars_eq_dev (l suffix : List Char) :
    generateValidBucketNameChars l true suffix
      = ("meteor-s3-".data ++ slugify l).take 63 := rfl

/-- Unfolding of the generator in the random-suffix (production)
derivation. -/
theorem genChars_eq_prod (l suffix : List Char) :
    generateValidBucketNameChars l false suffix
      = ("meteor-s3-".data ++ slugify l ++ ('-' :: suffix)).take 63 := rfl

/-- Truncation to 63 characters preserves the leading stem character. -/
theorem take63_head (base : List Char) (h : base.head? = some 'm') :
    (base.take 63).head? = some 'm' := by
  cases base with
  | nil => simp at h
  | cons b bs =>
    rw [show (63 : Nat) = 62 + 1 from rfl, List.take_succ_cons]
    simpa using h

/-- Generated bucket names are between 1 and 63 characters long. -/
theorem genChars_length (l : List Char) (dev : Bool) (suffix : List Char) :
    1 ≤ (generateValidBucketNameChars l dev suffix).length
    ∧ (generateValidBucketNameChars l dev suffix).length ≤ 63 := by
  have h10 : ("meteor-s3-".data).length = 10 := by decide
  cases dev with
  | true =>
    rw [genChars_eq_dev, List.length_take, List.length_append, h10]
    omega
  | false =>
    rw [genChars_eq_prod, List.length_take, List.length_append,
      List.length_append, h10]
    omega

/-- Generated bucket names consist of lowercase letters, digits and
hyphens only. -/
theorem genChars_all_valid (l : List Char) (dev : Bool) (suffix : List Char)
    (hsuffix : suffix.all isLowerAlnum = true) :
    (generateValidBucketNameChars l dev suffix).all validBucketChar = true := by
  have hstem : ∀ d ∈ "meteor-s3-".data, validBucketChar d = true := by decide
  rw [List.all_eq_true]
  intro c hc
  have hbase : c ∈ "meteor-s3-".data ∨ c ∈ slugify l ∨ c ∈ '-' :: suffix := by
    cases dev with
    | true =>
      rw [genChars_eq_dev] at hc
      have hcb := (List.take_sublist _ _).mem hc
      rcases List.mem_append.mp hcb with h | h
      · exact Or.inl h
      · exact Or.inr (Or.inl h)
    | false =>
      rw [genChars_eq_prod] at hc
      have hcb := (List.take_sublist _ _).mem hc
      rcases List.mem_append.mp hcb with h | h
      · rcases List.mem_append.mp h with h2 | h2
        · exact Or.inl h2
        · exact Or.inr (Or.inl h2)
      · exact Or.inr (Or.inr h)
  rcases hbase with h | h | h
  · exact hstem c h
  · exact slugify_all_valid _ _ h
  · rcases List.mem_cons.mp h with h2 | h2
    · rw [h2]; decide
    · exact validBucketChar_of_alnum _ (List.all_eq_true.mp hsuffix _ h2)

/-- Generated bucket names never start with a hyphen (they start with the
fixed stem). -/
theorem genChars_head (l : List Char) (dev : Bool) (suffix : List Char) :
    (generateValidBucketNameChars l dev suffix).head? = some 'm' := by
  cases dev with
  | true =>
    rw [genChars_eq_dev]
    refine take63_head _ ?_
    rw [List.head?_append_of_ne_nil _ (by decide)]
    decide
  | false =>
    rw [genChars_eq_prod]
    exact take63_head _ (baseChars_head _ _)

/-- A hyphen followed by an alphanumeric suffix contains no doubled
hyphen. -/
theorem noDoubleHyphen_hyphen_cons (l : List Char)
    (h : l.all isLowerAlnum = true) : noDoubleHyphen ('-' :: l) = true := by
  cases l with
  | nil => rfl
  | cons a tl =>
    have h' := h
    rw [List.all_cons, Bool.and_eq_true] at h'
    have han : (a == '-') = false := by
      by_cases ha : a = '-'
      · rw [ha] at h'; exact absurd h'.1 (by decide)
      · simpa using ha
    show (!('-' == '-' && a == '-') && noDoubleHyphen (a :: tl)) = true
    rw [Bool.and_eq_true]
    exact ⟨by rw [han]; simp, noDoubleHyphen_of_alnum _ h⟩

/-- Full bucket-name validity for the untruncated, nonempty-slug case. -/
theorem genChars_valid_of_good (l : List Char) (dev : Bool)
    (suffix : List Char)
    (hsuffix : suffix.all isLowerAlnum = true)
    (hsufNe : suffix ≠ [])
    (hslug : slugify l ≠ [])
    (hfit : (if dev then "meteor-s3-".data ++ slugify l
             else "meteor-s3-".data ++ slugify l
               ++ ('-' :: suffix)).length ≤ 63) :
    isValidBucketNameChars (generateValidBucketNameChars l dev suffix)
      = true := by
  have hlen := genChars_length l dev suffix
  have hall := genChars_all_valid l dev suffix hsuffix
  have hhead := genChars_head l dev suffix
  have hlast1 : ("meteor-s3-".data ++ slugify l).getLast? ≠ some '-' := by
    rw [List.getLast?_append_of_ne_nil _ hslug]
    exact slugify_getLast l
  have hnd1 : noDoubleHyphen ("meteor-s3-".data ++ slugify l) = true :=
    noDoubleHyphen_append _ _ (by decide) (slugify_noDouble l)
      (Or.inr (slugify_head l))
  have hlast : (generateValidBucketNameChars l dev suffix).getLast?
      ≠ some '-' := by
    cases dev with
    | true =>
      rw [genChars_eq_dev, List.take_of_length_le (by simpa using hfit)]
      exact hlast1
    | false =>
      rw [genChars_eq_prod, List.take_of_length_le (by simpa using hfit)]
      rw [List.getLast?_append_of_ne_nil _ (List.cons_ne_nil '-' suffix)]
      cases hs : suffix with
      | nil => exact absurd hs hsufNe
      | cons s0 srest =>
        rw [List.getLast?_cons_cons]
        have := alnum_getLast suffix hsuffix
        rwa [hs] at this
  have hnd : noDoubleHyphen (generateValidBucketNameChars l dev suffix)
      = true := by
    cases dev with
    | true =>
      rw [genChars_eq_dev]
      exact noDoubleHyphen_take _ _ hnd1
    | false =>
      rw [genChars_eq_prod]
      refine noDoubleHyphen_take _ _ ?_
      exact noDoubleHyphen_append _ _ hnd1
        (noDoubleHyphen_hyphen_cons _ hsuffix) (Or.inl hlast1)
  unfold isValidBucketNameChars
  rw [Bool.and_eq_true, Bool.and_eq_true, Bool.and_eq_true, Bool.and_eq_true,
    Bool.and_eq_true]
  refine ⟨⟨⟨⟨⟨?_, ?_⟩, hall⟩, ?_⟩, ?_⟩, hnd⟩
  · exact decide_eq_true hlen.1
  · exact decide_eq_true hlen.2
  · rw [hhead]; decide
  · have hfalse : ((generateValidBucketNameChars l dev suffix).getLast?
        == some '-') = false := by
      rw [beq_eq_false_iff_ne]
      exact hlast
    rw [hfalse]
    decide

/-- Every record matching the updated id carries the new status, etag and
update time after `markUploaded`. -/
theorem markUploaded_status (files : List FileRecord) (fileId : String)
    (etagVal : String) (now : Nat) :
    (markUploaded files fileId etagVal now).all
      (fun x => !(x.id == fileId)
        || (x.status == FileStatus.uploaded && x.etag == some etagVal
            && x.updatedAt == some now)) = true := by
  unfold markUploaded
  rw [List.all_eq_true]
  intro x hx
  rcases List.mem_map.mp hx with ⟨r, _, hrx⟩
  by_cases h : (r.id == fileId) = true
  · rw [← hrx]
    simp [h]
  · rw [← hrx]
    simp [h]

/-- Every record matching the updated id has status `uploaded` after
`markUploaded`. -/
theorem markUploaded_status_only (files : List FileRecord) (fileId : String)
    (etagVal : String) (now : Nat) :
    (markUploaded files fileId etagVal now).all
      (fun x => !(x.id == fileId) || x.status == FileStatus.uploaded)
      = true := by
  unfold markUploaded
  rw [List.all_eq_true]
  intro x hx
  rcases List.mem_map.mp hx with ⟨r, _, hrx⟩
  by_cases h : (r.id == fileId) = true
  · rw [← hrx]
    simp [h]
  · rw [← hrx]
    simp [h]

/-- C4: when the record exists but the head probe on its key fails, the
confirmation fails with NotFound and performs no mutation at all — the
files collection is returned unchanged and no hook or store effect
occurs. -/
theorem confirmUpload_probe_failure
    (files : List FileRecord) (fileId : String) (r : FileRecord)
    (headObject : String → Option String) (now : Nat)
    (hfind : findFile files fileId = some r)
    (hprobe : headObject r.key = none) :
    handleFileUploadEvent files headObject now fileId
      = { result := Except.error S3Err.fileNotFound
          files := files
          effects := noEffects } := by
  unfold handleFileUploadEvent
  rw [hfind]
  simp only [hprobe]

/-- Witness for `confirmUpload_probe_failure` at a concrete pending record
and an always-failing probe. -/
theorem confirmUpload_probe_failure_witness :
    handleFileUploadEvent [c4rec] (fun _ => none) 7 "f4"
      = { result := Except.error S3Err.fileNotFound
          files := [c4rec]
          effects := noEffects } :=
  confirmUpload_probe_failure [c4rec] "f4" c4rec (fun _ => none) 7
    (by decide) rfl

/-- C1 counterexample: re-confirming the already-`uploaded` record `c1rec`
(object still present with a fresh digest) mutates the stored record and
re-invokes the after-upload hook, so the claimed idempotence fails. -/
theorem confirmUpload_idempotence_counterexample :
    (handleFileUploadEvent [c1rec] c1probe 2 "f1").files ≠ [c1rec]
    ∧ (handleFileUploadEvent [c1rec] c1probe 2 "f1").effects.afterUploadCalls
        ≠ [] := by
  exact ⟨by decide, by decide⟩

/-- C1 (amended): `handleFileUploadEvent` performs no terminal-state check.
For a record whose status is already `uploaded` or `error`, as long as the
head probe succeeds, the call does return the existing (pre-call) record,
but it re-runs the side effects: it re-invokes the after-upload hook once
and overwrites the stored record's status to `uploaded` together with fresh
`etag` and `updatedAt` values (in particular an `error` record is moved
back to `uploaded`). -/
theorem confirmUpload_no_terminal_check
    (files : List FileRecord) (fileId : String) (r : FileRecord)
    (headObject : String → Option String) (now : Nat) (etagVal : String)
    (hfind : findFile files fileId = some r)
    (_hterm : r.status = FileStatus.uploaded ∨ r.status = FileStatus.error)
    (hprobe : headObject r.key = some etagVal) :
    (handleFileUploadEvent files headObject now fileId).result = Except.ok r
    ∧ (handleFileUploadEvent files headObject now fileId).effects.afterUploadCalls
        = [r]
    ∧ (handleFileUploadEvent files headObject now fileId).files.all
        (fun x => !(x.id == fileId)
          || (x.status == FileStatus.uploaded && x.etag == some etagVal
              && x.updatedAt == some now)) = true := by
  unfold handleFileUploadEvent
  rw [hfind]
  simp [hprobe, markUploaded_status]

/-- Witness for `confirmUpload_no_terminal_check` at the uploaded record
`c1rec`. -/
theorem confirmUpload_no_terminal_check_witness :
    (handleFileUploadEvent [c1rec] c1probe 2 "f1").result = Except.ok c1rec
    ∧ (handleFileUploadEvent [c1rec] c1probe 2 "f1").effects.afterUploadCalls
        = [c1rec]
    ∧ (handleFileUploadEvent [c1rec] c1probe 2 "f1").files.all
        (fun x => !(x.id == "f1")
          || (x.status == FileStatus.uploaded && x.etag == some "etag-new"
              && x.updatedAt == some 2)) = true :=
  confirmUpload_no_terminal_check [c1rec] "f1" c1rec c1probe 2 "etag-new"
    (by decide) (Or.inl rfl) (by decide)

/-- C2 counterexample: confirming the pending record `c2rec` does update
the stored record to `uploaded` with the probed etag, but the operation
returns the record loaded before the update — its status is still
`pending` and it does not carry the new etag — refuting the claim that the
returned record is the updated one. -/
theorem confirmUpload_stale_return_counterexample :
    (handleFileUploadEvent [c2rec] c2probe 3 "f2").result = Except.ok c2rec
    ∧ c2rec.status = FileStatus.pending
    ∧ c2rec.etag ≠ some "etag-new"
    ∧ (handleFileUploadEvent [c2rec] c2probe 3 "f2").files
        = [{ c2rec with
              status := FileStatus.uploaded
              etag := some "etag-new"
              updatedAt := some 3 }] := by
  exact ⟨rfl, rfl, by decide, by decide⟩

/-- C2 (amended): for a missing record the confirmation fails with NotFound
and changes nothing; for an existing record whose probe succeeds, the
stored record is set to `uploaded` with the probed etag and a fresh
`updatedAt`, and the operation returns the record as loaded before that
update (not the updated record). -/
theorem confirmUpload_updates_and_reports
    (filesA : List FileRecord) (fileIdA : String)
    (files : List FileRecord) (fileId : String) (r : FileRecord)
    (headObject : String → Option String) (now : Nat) (etagVal : String)
    (hnone : findFile filesA fileIdA = none)
    (hfind : findFile files fileId = some r)
    (hprobe : headObject r.key = some etagVal) :
    handleFileUploadEvent filesA headObject now fileIdA
      = { result := Except.error S3Err.fileNotFound
          files := filesA
          effects := noEffects }
    ∧ (handleFileUploadEvent files headObject now fileId).result = Except.ok r
    ∧ (handleFileUploadEvent files headObject now fileId).files.all
        (fun x => !(x.id == fileId)
          || (x.status == FileStatus.uploaded && x.etag == some etagVal
              && x.updatedAt == some now)) = true := by
  refine ⟨?_, ?_, ?_⟩
  · unfold handleFileUploadEvent
    rw [hnone]
  · unfold handleFileUploadEvent
    rw [hfind]
    simp [hprobe]
  · unfold handleFileUploadEvent
    rw [hfind]
    simp [hprobe, markUploaded_status]

/-- Witness for `confirmUpload_updates_and_reports` at a concrete missing
id and the pending record `c2rec`. -/
theorem confirmUpload_updates_and_reports_witness :
    handleFileUploadEvent [] c2probe 3 "missing"
      = { result := Except.error S3Err.fileNotFound
          files := []
          effects := noEffects }
    ∧ (handleFileUploadEvent [c2rec] c2probe 3 "f2").result = Except.ok c2rec
    ∧ (handleFileUploadEvent [c2rec] c2probe 3 "f2").files.all
        (fun x => !(x.id == "f2")
          || (x.status == FileStatus.uploaded && x.etag == some "etag-new"
              && x.updatedAt == some 3)) = true :=
  confirmUpload_updates_and_reports [] "missing" [c2rec] "f2" c2rec
    c2probe 3 "etag-new" rfl (by decide) (by decide)

/-- C10: the registered `handleFileUploadEvent` method consults no
permission gate and no requester identity: its outcome is identical for any
two callers, any contexts and any configured permission predicate or
skip-flag, and any such caller flips an existing record whose object is
present in the store to `uploaded`. -/
theorem confirmUpload_caller_independent
    (skip1 skip2 : Bool) (check1 check2 : PermCheck)
    (u1 u2 : Option String) (ctx1 ctx2 : String)
    (files : List FileRecord) (headObject : String → Option String)
    (now : Nat) (fileId : String) (r : FileRecord) (etagVal : String)
    (hfind : findFile files fileId = some r)
    (hprobe : headObject r.key = some etagVal) :
    methodHandleFileUploadEvent skip1 check1 u1 ctx1 files headObject now fileId
      = methodHandleFileUploadEvent skip2 check2 u2 ctx2 files headObject now fileId
    ∧ (methodHandleFileUploadEvent skip1 check1 u1 ctx1 files headObject now
        fileId).files.all
        (fun x => !(x.id == fileId) || x.status == FileStatus.uploaded)
        = true := by
  constructor
  · rfl
  · unfold methodHandleFileUploadEvent handleFileUploadEvent
    rw [hfind]
    simp [hprobe, markUploaded_status_only]

/-- Witness for `confirmUpload_caller_independent`: an anonymous caller
under a deny-all gate and a trusted caller with checks skipped observe the
same outcome on `c10rec`, and the record ends up `uploaded`. -/
theorem confirmUpload_caller_independent_witness :
    methodHandleFileUploadEvent false denyAll none "" [c10rec] c10probe 9 "f10"
      = methodHandleFileUploadEvent true allowAll (some "mallory") "ctx"
          [c10rec] c10probe 9 "f10"
    ∧ (methodHandleFileUploadEvent false denyAll none "" [c10rec] c10probe 9
        "f10").files.all
        (fun x => !(x.id == "f10") || x.status == FileStatus.uploaded)
        = true :=
  confirmUpload_caller_independent false true denyAll allowAll none
    (some "mallory") "" "ctx" [c10rec] c10probe 9 "f10" c10rec "etag-10"
    (by decide) (by decide)

/-- C5: whenever the permission check passes, `getUploadUrl` inserts
exactly one new record, that record has status `pending` and a key of the
form `uploads/...` (for any pluggable key naming hook), and the presigned
PUT URL as well as the returned URL target exactly the persisted record's
key. -/
theorem getUploadUrl_pending_record
    (skip : Bool) (check : PermCheck) (onGetKey : KeyNamer)
    (bucketName : String) (uploadExpiresIn : Nat)
    (files : List FileRecord) (newId : String) (now : Nat)
    (name : String) (size : Nat) (type : String) (meta : String)
    (userId : Option String) (context : String)
    (hperm : handlePermissionsCheck skip check
        (PermTarget.infos
          { filename := name, size := size, mimeType := type, meta := meta })
        S3Action.upload userId context = true) :
    ∃ doc : FileRecord, ∃ rest : String,
      (getUploadUrl skip check onGetKey bucketName uploadExpiresIn files newId
          now name size type meta userId context).files = files ++ [doc]
      ∧ doc.status = FileStatus.pending
      ∧ doc.key = "uploads/" ++ rest
      ∧ (getUploadUrl skip check onGetKey bucketName uploadExpiresIn files
          newId now name size type meta userId context).result
          = Except.ok
              ({ bucket := bucketName, key := doc.key
                 expiresIn := uploadExpiresIn }, newId)
      ∧ (getUploadUrl skip check onGetKey bucketName uploadExpiresIn files
          newId now name size type meta userId context).effects.presignedPuts
          = [{ bucket := bucketName, key := doc.key
               expiresIn := uploadExpiresIn }] := by
  refine ⟨{ id := newId
            filename := name
            size := size
            mimeType := type
            key := "uploads/" ++ onGetKey
              { filename := name, size := size, mimeType := type, meta := meta }
              userId context
            bucket := bucketName
            status := FileStatus.pending
            etag := none
            ownerId := userId
            createdAt := now
            updatedAt := none
            meta := meta },
    onGetKey
      { filename := name, size := size, mimeType := type, meta := meta }
      userId context, ?_, rfl, rfl, ?_, ?_⟩
  · simp only [getUploadUrl]
    rw [hperm]
    simp
  · simp only [getUploadUrl]
    rw [hperm]
    simp
  · simp only [getUploadUrl]
    rw [hperm]
    simp

/-- Witness for `getUploadUrl_pending_record`: a concrete allowed upload
with the default key naming hook. -/
theorem getUploadUrl_pending_record_witness :
    ∃ doc : FileRecord, ∃ rest : String,
      (getUploadUrl false allowAll (defaultOnGetKey "Rnd123") "meteor-s3-t" 60
          [] "fNew" 4 "a.png" 10 "image/png" "" (some "u1") "ctx").files
        = [] ++ [doc]
      ∧ doc.status = FileStatus.pending
      ∧ doc.key = "uploads/" ++ rest
      ∧ (getUploadUrl false allowAll (defaultOnGetKey "Rnd123") "meteor-s3-t"
          60 [] "fNew" 4 "a.png" 10 "image/png" "" (some "u1") "ctx").result
          = Except.ok
              ({ bucket := "meteor-s3-t", key := doc.key, expiresIn := 60 },
                "fNew")
      ∧ (getUploadUrl false allowAll (defaultOnGetKey "Rnd123") "meteor-s3-t"
          60 [] "fNew" 4 "a.png" 10 "image/png" "" (some "u1")
          "ctx").effects.presignedPuts
          = [{ bucket := "meteor-s3-t", key := doc.key, expiresIn := 60 }] :=
  getUploadUrl_pending_record false allowAll (defaultOnGetKey "Rnd123")
    "meteor-s3-t" 60 [] "fNew" 4 "a.png" 10 "image/png" "" (some "u1") "ctx"
    (by decide)

/-- C6: whenever the permission check evaluates to false, each operation
fails with PermissionDenied and performs nothing else: the files collection
is unchanged and the effect log is empty — no record insert or removal, no
presigned URL mint, no object deletion, no lifecycle hook. -/
theorem permission_denial_short_circuits
    (skip : Bool) (check : PermCheck) (onGetKey : KeyNamer)
    (bucketName : String) (uploadExpiresIn downloadExpiresIn : Nat)
    (filesU : List FileRecord) (newId : String) (now : Nat)
    (name : String) (size : Nat) (type : String) (meta : String)
    (userId : Option String) (context : String)
    (filesD : List FileRecord) (fileIdD : String) (rD : FileRecord)
    (filesX : List FileRecord) (fileIdX : String) (rX : FileRecord)
    (deleteOk : Bool)
    (hfD : findFile filesD fileIdD = some rD)
    (hfX : findFile filesX fileIdX = some rX)
    (hU : handlePermissionsCheck skip check
        (PermTarget.infos
          { filename := name, size := size, mimeType := type, meta := meta })
        S3Action.upload userId context = false)
    (hD : handlePermissionsCheck skip check (PermTarget.record rD)
        S3Action.download userId context = false)
    (hX : handlePermissionsCheck skip check (PermTarget.record rX)
        S3Action.delete userId context = false) :
    getUploadUrl skip check onGetKey bucketName uploadExpiresIn filesU newId
        now name size type meta userId context
      = { result := Except.error S3Err.permissionDenied
          files := filesU
          effects := noEffects }
    ∧ getDownloadUrl skip check bucketName downloadExpiresIn filesD fileIdD
        userId context
      = { result := Except.error S3Err.permissionDenied
          files := filesD
          effects := noEffects }
    ∧ head skip check filesD fileIdD userId context
      = { result := Except.error S3Err.permissionDenied
          files := filesD
          effects := noEffects }
    ∧ removeFile skip check bucketName filesX fileIdX userId context deleteOk
      = { result := Except.error S3Err.permissionDenied
          files := filesX
          effects := noEffects } := by
  refine ⟨?_, ?_, ?_, ?_⟩
  · simp only [getUploadUrl]
    rw [hU]
    simp
  · unfold getDownloadUrl
    rw [hfD]
    simp [hD]
  · unfold head
    rw [hfD]
    simp [hD]
  · unfold removeFile
    rw [hfX]
    simp [hX]

/-- Witness for `permission_denial_short_circuits` under a deny-all hook on
concrete records. -/
theorem permission_denial_short_circuits_witness :
    getUploadUrl false denyAll (defaultOnGetKey "Rnd123") "meteor-s3-t" 60 []
        "fNew" 4 "a.png" 10 "image/png" "" (some "u1") "ctx"
      = { result := Except.error S3Err.permissionDenied
          files := []
          effects := noEffects }
    ∧ getDownloadUrl false denyAll "meteor-s3-t" 60 [c1rec] "f1" (some "u1")
        "ctx"
      = { result := Except.error S3Err.permissionDenied
          files := [c1rec]
          effects := noEffects }
    ∧ head false denyAll [c1rec] "f1" (some "u1") "ctx"
      = { result := Except.error S3Err.permissionDenied
          files := [c1rec]
          effects := noEffects }
    ∧ removeFile false denyAll "meteor-s3-t" [c4rec] "f4" (some "u1") "ctx"
        true
      = { result := Except.error S3Err.permissionDenied
          files := [c4rec]
          effects := noEffects } :=
  permission_denial_short_circuits false denyAll (defaultOnGetKey "Rnd123")
    "meteor-s3-t" 60 60 [] "fNew" 4 "a.png" 10 "image/png" "" (some "u1")
    "ctx" [c1rec] "f1" c1rec [c4rec] "f4" c4rec true
    (by decide) (by decide) rfl rfl rfl

/-- C7: `removeFile` is atomic across the store and the ledger. When the
record exists and the permission check passes, a failing object deletion
makes the operation fail with DeleteFailed and leaves the files collection
untouched; a succeeding deletion removes exactly the records with that id,
and in both cases the delete call targets the record's key in the instance
bucket. -/
theorem removeFile_atomic
    (skip : Bool) (check : PermCheck) (bucketName : String)
    (files : List FileRecord) (fileId : String) (r : FileRecord)
    (userId : Option String) (context : String)
    (hfind : findFile files fileId = some r)
    (hperm : handlePermissionsCheck skip check (PermTarget.record r)
        S3Action.delete userId context = true) :
    removeFile skip check bucketName files fileId userId context false
      = { result := Except.error S3Err.deleteFailed
          files := files
          effects := { noEffects with deleteCalls := [(bucketName, r.key)] } }
    ∧ removeFile skip check bucketName files fileId userId context true
      = { result := Except.ok ()
          files := files.filter (fun x => !(x.id == fileId))
          effects := { noEffects with deleteCalls := [(bucketName, r.key)] } }
    ∧ (removeFile skip check bucketName files fileId userId context
        true).files.all (fun x => !(x.id == fileId)) = true := by
  refine ⟨?_, ?_, ?_⟩
  · unfold removeFile
    rw [hfind]
    simp [hperm]
  · unfold removeFile
    rw [hfind]
    simp [hperm]
  · unfold removeFile
    rw [hfind]
    simp only [hperm, if_true]
    rw [List.all_eq_true]
    intro x hx
    exact (List.mem_filter.mp hx).2

/-- Witness for `removeFile_atomic` on the concrete record `c4rec` with
permission checks skipped. -/
theorem removeFile_atomic_witness :
    removeFile true denyAll "meteor-s3-t" [c4rec] "f4" none "" false
      = { result := Except.error S3Err.deleteFailed
          files := [c4rec]
          effects := { noEffects with
                         deleteCalls := [("meteor-s3-t", c4rec.key)] } }
    ∧ removeFile true denyAll "meteor-s3-t" [c4rec] "f4" none "" true
      = { result := Except.ok ()
          files := List.filter (fun x => !(x.id == "f4")) [c4rec]
          effects := { noEffects with
                         deleteCalls := [("meteor-s3-t", c4rec.key)] } }
    ∧ (removeFile true denyAll "meteor-s3-t" [c4rec] "f4" none ""
        true).files.all (fun x => !(x.id == "f4")) = true :=
  removeFile_atomic true denyAll "meteor-s3-t" [c4rec] "f4" c4rec none ""
    (by decide) rfl

/-- C8: with no configured permission hook the resolved check denies every
request — every target, action, requester and context — and consequently
(with `skipPermissionChecks` false) each gate-guarded operation on an
existing record fails with PermissionDenied without side effects.
(The confirmation handler performs no gate check at all; that behaviour is
covered separately.) -/
theorem default_gate_denies_everything
    (target : PermTarget) (action : S3Action)
    (userId : Option String) (context : String)
    (onGetKey : KeyNamer) (bucketName : String)
    (uploadExpiresIn downloadExpiresIn : Nat)
    (filesU : List FileRecord) (newId : String) (now : Nat)
    (name : String) (size : Nat) (type : String) (meta : String)
    (filesD : List FileRecord) (fileIdD : String) (rD : FileRecord)
    (filesX : List FileRecord) (fileIdX : String) (rX : FileRecord)
    (deleteOk : Bool)
    (hfD : findFile filesD fileIdD = some rD)
    (hfX : findFile filesX fileIdX = some rX) :
    resolvePermCheck none target action userId context = false
    ∧ getUploadUrl false (resolvePermCheck none) onGetKey bucketName
        uploadExpiresIn filesU newId now name size type meta userId context
      = { result := Except.error S3Err.permissionDenied
          files := filesU
          effects := noEffects }
    ∧ getDownloadUrl false (resolvePermCheck none) bucketName
        downloadExpiresIn filesD fileIdD userId context
      = { result := Except.error S3Err.permissionDenied
          files := filesD
          effects := noEffects }
    ∧ head false (resolvePermCheck none) filesD fileIdD userId context
      = { result := Except.error S3Err.permissionDenied
          files := filesD
          effects := noEffects }
    ∧ removeFile false (resolvePermCheck none) bucketName filesX fileIdX
        userId context deleteOk
      = { result := Except.error S3Err.permissionDenied
          files := filesX
          effects := noEffects } := by
  have hmain := permission_denial_short_circuits false (resolvePermCheck none)
    onGetKey bucketName uploadExpiresIn downloadExpiresIn filesU newId now
    name size type meta userId context filesD fileIdD rD filesX fileIdX rX
    deleteOk hfD hfX rfl rfl rfl
  exact ⟨rfl, hmain.1, hmain.2.1, hmain.2.2.1, hmain.2.2.2⟩

/-- Witness for `default_gate_denies_everything` at concrete records and a
concrete request. -/
theorem default_gate_denies_everything_witness :
    resolvePermCheck none (PermTarget.record c1rec) S3Action.download
        (some "u1") "ctx" = false
    ∧ getUploadUrl false (resolvePermCheck none) (defaultOnGetKey "Rnd123")
        "meteor-s3-t" 60 [] "fNew" 4 "a.png" 10 "image/png" "" (some "u1")
        "ctx"
      = { result := Except.error S3Err.permissionDenied
          files := []
          effects := noEffects }
    ∧ getDownloadUrl false (resolvePermCheck none) "meteor-s3-t" 60 [c1rec]
        "f1" (some "u1") "ctx"
      = { result := Except.error S3Err.permissionDenied
          files := [c1rec]
          effects := noEffects }
    ∧ head false (resolvePermCheck none) [c1rec] "f1" (some "u1") "ctx"
      = { result := Except.error S3Err.permissionDenied
          files := [c1rec]
          effects := noEffects }
    ∧ removeFile false (resolvePermCheck none) "meteor-s3-t" [c4rec] "f4"
        (some "u1") "ctx" true
      = { result := Except.error S3Err.permissionDenied
          files := [c4rec]
          effects := noEffects } :=
  default_gate_denies_everything (PermTarget.record c1rec) S3Action.download
    (some "u1") "ctx" (defaultOnGetKey "Rnd123") "meteor-s3-t" 60 60 []
    "fNew" 4 "a.png" 10 "image/png" "" [c1rec] "f1" c1rec [c4rec] "f4" c4rec
    true (by decide) (by decide)

/-- C9: the trigger wiring merges without clobbering and verifies itself.
The configuration written on every attempt contains the desired entry,
keeps every current lambda entry whose (function ARN, id) pair differs from
the desired one, and carries the queue and topic configurations over
unchanged; the desired id is derived deterministically from the function
name; a run that returns success really found the desired entry on the
final read-back (absence yields an error); and exhausting the bounded
retries surfaces an error rather than silent success. -/
theorem ensureS3UploadTrigger_merge_verified
    (functionName lambdaArn : String) (current : NotifConfig)
    (ready : Bool) (addPerm : AddPermOutcome)
    (read1 : Nat → NotifConfig) (put1 : Nat → NotifConfig → PutNotifOutcome)
    (finalRead1 : NotifConfig)
    (read2 : Nat → NotifConfig) (finalRead2 : NotifConfig)
    (hok : ensureS3UploadTrigger functionName lambdaArn ready addPerm read1
        put1 finalRead1 = Except.ok ()) :
    desiredNotifEntry functionName lambdaArn
      ∈ (mergeNotifConfig current
          (desiredNotifEntry functionName lambdaArn)).lambdaConfigs
    ∧ current.lambdaConfigs.all
        (fun c => notifMatchesDesired (desiredNotifEntry functionName
            lambdaArn) c
          || decide (c ∈ (mergeNotifConfig current
              (desiredNotifEntry functionName lambdaArn)).lambdaConfigs))
        = true
    ∧ (mergeNotifConfig current
        (desiredNotifEntry functionName lambdaArn)).queueConfigs
        = current.queueConfigs
    ∧ (mergeNotifConfig current
        (desiredNotifEntry functionName lambdaArn)).topicConfigs
        = current.topicConfigs
    ∧ (desiredNotifEntry functionName lambdaArn).id
        = String.mk (("uploads-" ++ functionName).data.take 50)
    ∧ finalRead1.lambdaConfigs.any
        (notifMatchesDesired (desiredNotifEntry functionName lambdaArn))
        = true
    ∧ ensureS3UploadTrigger functionName lambdaArn true AddPermOutcome.success
        read2 (fun _ _ => PutNotifOutcome.retryable) finalRead2
        = Except.error TriggerErr.putRetriesExhausted := by
  refine ⟨?_, ?_, ?_, ?_, ?_, ?_, ?_⟩
  · unfold mergeNotifConfig
    exact List.mem_append_right _ (List.mem_singleton_self _)
  · rw [List.all_eq_true]
    intro c hc
    by_cases hmatch : notifMatchesDesired
        (desiredNotifEntry functionName lambdaArn) c = true
    · rw [hmatch]
      simp
    · have hkeep : c ∈ (mergeNotifConfig current
          (desiredNotifEntry functionName lambdaArn)).lambdaConfigs := by
        unfold mergeNotifConfig
        refine List.mem_append_left _ ?_
        rw [List.mem_filter]
        exact ⟨hc, by simp [hmatch]⟩
      rw [decide_eq_true hkeep]
      simp
  · unfold mergeNotifConfig
    rfl
  · unfold mergeNotifConfig
    rfl
  · unfold desiredNotifEntry
    rfl
  · unfold ensureS3UploadTrigger at hok
    cases ready with
    | false => simp at hok
    | true =>
      simp only [Bool.not_true] at hok
      cases addPerm with
      | fatal => simp at hok
      | success =>
        cases hput : putNotifWithRetry
            (desiredNotifEntry functionName lambdaArn) read1 put1 8 0 with
        | error e => rw [hput] at hok; simp at hok
        | ok u =>
          cases u
          rw [hput] at hok
          simp only [if_neg] at hok
          by_cases hv : finalRead1.lambdaConfigs.any
              (notifMatchesDesired
                (desiredNotifEntry functionName lambdaArn)) = true
          · exact hv
          · rw [if_neg hv] at hok
            exact absurd hok (by simp)
      | alreadyExists =>
        cases hput : putNotifWithRetry
            (desiredNotifEntry functionName lambdaArn) read1 put1 8 0 with
        | error e => rw [hput] at hok; simp at hok
        | ok u =>
          cases u
          rw [hput] at hok
          by_cases hv : finalRead1.lambdaConfigs.any
              (notifMatchesDesired
                (desiredNotifEntry functionName lambdaArn)) = true
          · exact hv
          · rw [if_neg hv] at hok
            exact absurd hok (by simp)
  · rfl

/-- Witness for `ensureS3UploadTrigger_merge_verified` on a concrete bucket
configuration and a run where the write succeeds at once and the read-back
contains the desired entry. -/
theorem ensureS3UploadTrigger_merge_verified_witness :
    desiredNotifEntry "meteorS3-pics-uploadHandler" "arn:aws:lambda:fn"
      ∈ (mergeNotifConfig
          { lambdaConfigs := [otherNotifEntry]
            queueConfigs := ["queue-cfg"]
            topicConfigs := ["topic-cfg"] }
          (desiredNotifEntry "meteorS3-pics-uploadHandler"
            "arn:aws:lambda:fn")).lambdaConfigs
    ∧ ([otherNotifEntry] : List NotifEntry).all
        (fun c => notifMatchesDesired
            (desiredNotifEntry "meteorS3-pics-uploadHandler"
              "arn:aws:lambda:fn") c
          || decide (c ∈ (mergeNotifConfig
              { lambdaConfigs := [otherNotifEntry]
                queueConfigs := ["queue-cfg"]
                topicConfigs := ["topic-cfg"] }
              (desiredNotifEntry "meteorS3-pics-uploadHandler"
                "arn:aws:lambda:fn")).lambdaConfigs))
        = true
    ∧ (mergeNotifConfig
        { lambdaConfigs := [otherNotifEntry]
          queueConfigs := ["queue-cfg"]
          topicConfigs := ["topic-cfg"] }
        (desiredNotifEntry "meteorS3-pics-uploadHandler"
          "arn:aws:lambda:fn")).queueConfigs = ["queue-cfg"]
    ∧ (mergeNotifConfig
        { lambdaConfigs := [otherNotifEntry]
          queueConfigs := ["queue-cfg"]
          topicConfigs := ["topic-cfg"] }
        (desiredNotifEntry "meteorS3-pics-uploadHandler"
          "arn:aws:lambda:fn")).topicConfigs = ["topic-cfg"]
    ∧ (desiredNotifEntry "meteorS3-pics-uploadHandler"
        "arn:aws:lambda:fn").id
        = String.mk (("uploads-" ++ "meteorS3-pics-uploadHandler").data.take 50)
    ∧ ([desiredNotifEntry "meteorS3-pics-uploadHandler"
        "arn:aws:lambda:fn"] : List NotifEntry).any
        (notifMatchesDesired
          (desiredNotifEntry "meteorS3-pics-uploadHandler"
            "arn:aws:lambda:fn")) = true
    ∧ ensureS3UploadTrigger "meteorS3-pics-uploadHandler" "arn:aws:lambda:fn"
        true AddPermOutcome.success
        (fun _ => { lambdaConfigs := [otherNotifEntry]
                    queueConfigs := ["queue-cfg"]
                    topicConfigs := ["topic-cfg"] })
        (fun _ _ => PutNotifOutcome.retryable)
        { lambdaConfigs := []
          queueConfigs := []
          topicConfigs := [] }
        = Except.error TriggerErr.putRetriesExhausted :=
  ensureS3UploadTrigger_merge_verified "meteorS3-pics-uploadHandler"
    "arn:aws:lambda:fn"
    { lambdaConfigs := [otherNotifEntry]
      queueConfigs := ["queue-cfg"]
      topicConfigs := ["topic-cfg"] }
    true AddPermOutcome.success
    (fun _ => { lambdaConfigs := [otherNotifEntry]
                queueConfigs := ["queue-cfg"]
                topicConfigs := ["topic-cfg"] })
    (fun _ _ => PutNotifOutcome.success)
    { lambdaConfigs := [desiredNotifEntry "meteorS3-pics-uploadHandler"
        "arn:aws:lambda:fn"]
      queueConfigs := []
      topicConfigs := [] }
    (fun _ => { lambdaConfigs := [otherNotifEntry]
                queueConfigs := ["queue-cfg"]
                topicConfigs := ["topic-cfg"] })
    { lambdaConfigs := []
      queueConfigs := []
      topicConfigs := [] }
    rfl

/-- C3 counterexample: the generator violates the claimed name validity.
With an empty (or all-invalid) instance name, the development (fixed
suffix) derivation yields `meteor-s3-` — a trailing hyphen — and the
production (random suffix) derivation yields `meteor-s3--<suffix>` — a
doubled hyphen; and a long instance name whose 63-character truncation cuts
at a hyphen yields a trailing hyphen as well. -/
theorem generateValidBucketName_counterexample :
    isValidBucketName (generateValidBucketName "" true "a1b2c3") = false
    ∧ isValidBucketName (generateValidBucketName "" false "a1b2c3") = false
    ∧ isValidBucketName (generateValidBucketName
        "aaaaaaaaaaaaaaaaaaaaaaaaaaaaaaaaaaaaaaaaaaaaaaaaaaaa-bb" true "a1b2c3") = false := by
  exact ⟨by decide, by decide, by decide⟩

/-- C3 (amended): for every instance name and every lowered alphanumeric
6-character random suffix, the generated name is 1 to 63 characters long,
contains only lowercase letters, digits and hyphens, and never starts with
a hyphen, in both derivations; the full claimed validity — additionally no
trailing and no doubled hyphen — holds whenever the slugified instance name
is nonempty and the untruncated base name fits into 63 characters. -/
theorem generateValidBucketName_amended
    (nameAny nameGood randomSuffix : String) (dev devG : Bool)
    (hsuffix : randomSuffix.data.all isLowerAlnum = true)
    (hsufLen : randomSuffix.length = 6)
    (hslug : slugify nameGood.data ≠ [])
    (hfit : (if devG then "meteor-s3-".data ++ slugify nameGood.data
             else "meteor-s3-".data ++ slugify nameGood.data
               ++ ('-' :: randomSuffix.data)).length ≤ 63) :
    (1 ≤ (generateValidBucketName nameAny dev randomSuffix).data.length
      ∧ (generateValidBucketName nameAny dev randomSuffix).data.length ≤ 63)
    ∧ (generateValidBucketName nameAny dev randomSuffix).data.all
        validBucketChar = true
    ∧ (generateValidBucketName nameAny dev randomSuffix).data.head?
        ≠ some '-'
    ∧ isValidBucketName (generateValidBucketName nameGood devG randomSuffix)
        = true := by
  have hsufNe : randomSuffix.data ≠ [] := by
    intro hnil
    have hlen : randomSuffix.data.length = 6 := hsufLen
    rw [hnil] at hlen
    simp at hlen
  refine ⟨?_, ?_, ?_, ?_⟩
  · exact genChars_length nameAny.data dev randomSuffix.data
  · exact genChars_all_valid nameAny.data dev randomSuffix.data hsuffix
  · rw [show (generateValidBucketName nameAny dev randomSuffix).data
        = generateValidBucketNameChars nameAny.data dev randomSuffix.data
        from rfl]
    rw [genChars_head]
    simp
  · exact genChars_valid_of_good nameGood.data devG randomSuffix.data
      hsuffix hsufNe hslug hfit

/-- Witness for `generateValidBucketName_amended`: an arbitrary mixed-case
input in the development derivation plus a well-behaved input in the
production derivation. -/
theorem generateValidBucketName_amended_witness :
    (1 ≤ (generateValidBucketName "any!NAME" true "a1b2c3").data.length
      ∧ (generateValidBucketName "any!NAME" true "a1b2c3").data.length ≤ 63)
    ∧ (generateValidBucketName "any!NAME" true "a1b2c3").data.all
        validBucketChar = true
    ∧ (generateValidBucketName "any!NAME" true "a1b2c3").data.head?
        ≠ some '-'
    ∧ isValidBucketName (generateValidBucketName "Profile Pictures!" false
        "a1b2c3") = true :=
  generateValidBucketName_amended "any!NAME" "Profile Pictures!" "a1b2c3"
    true false (by decide) (by decide) (by decide) (by decide)

end MeteorS3
